import Mathlib

/-!
Verification development for the Sterling order-gateway connector.

Shallow embedding of the gateway core:
* `place_order` — the dispatch coordinator, translated from
  `SterlingCOM.place_order` in `src/connector/connector/sterling_com.py`
  (lines 235–421), in the operative configuration `HAS_PYWIN32 = True`,
  `self._wrapper = None`, native control present.  The native COM submit call
  (`control.SubmitOrderStruct(order_obj)`, together with the surrounding
  `try` block) is modelled as an opaque backend function returning
  `Except String SubmitResult`: `Except.error e` is a raised exception whose
  text is `str(e)`, `Except.ok r` a returned COM result object.
* `is_idempotent` / `store_idempotent` — the state store, translated from
  `SessionManager` in `src/connector/session_manager.py` and
  `src/connector/connector/session_manager.py`; the sqlite table
  `idempotency (key TEXT PRIMARY KEY, result TEXT, created_at INTEGER)` is
  modelled as an association list from key to result, and the SQL statement
  `INSERT OR REPLACE INTO idempotency ...` as replacement of the row.
* the control-channel client — translated from `WSClient` in
  `src/connector/ws_client.py`: the register-then-read epoch body `_run`,
  the reconnect loop `connect_loop` with `_next_backoff`, the message
  handler `_handle`, and the guarded sender `_send`.

Python conventions carried over: a dict field that may be absent is an
`Option`; Python truthiness of an optional string (`if idem:`) is the
`truthy` function below; float backoff arithmetic is modelled over `ℚ`.
-/

/-- Python truthiness of an optional string value: `None` and `""` are
falsy, any other string is truthy (used for `if idem:` and `if prev:` in
`place_order`, and for `or` coalescing in `_run`). -/
def truthy : Option String → Option String
  | some s => if s = "" then none else some s
  | none => none

/-- An inbound order command, as the dict consumed by
`SterlingCOM.place_order`.  Fields the code reads with `order.get`/`order[...]`;
`none` models an absent key.  `orderKind` may be carried by an inbound
command but is never read by `place_order`. -/
structure Order where
  account : Option String := none
  symbol : Option String := none
  side : Option String := none
  qty : Option Int := none
  price : Option ℚ := none
  tif : Option String := none
  destination : Option String := none
  idempotencyKey : Option String := none
  orderKind : Option String := none
deriving Repr, DecidableEq

/-- The COM result object of a successful native submit call, as read by
`place_order` lines 394–398: `clientOrderId` is the coalesced value of
`getattr(res, "ClientOrderId", None) or getattr(res, "OrderId", None)`,
`status` the value of `getattr(res, "Status", "submitted")`. -/
structure SubmitResult where
  clientOrderId : Option String
  status : String
  details : String
deriving Repr, DecidableEq

/-- The acknowledgement record `place_order` returns:
`{"status": ..., "details": ..., "clientOrderId": ...}`. -/
structure DispatchResult where
  status : String
  details : String
  clientOrderId : Option String
deriving Repr, DecidableEq

/-- The idempotency table: association list from key to stored result id,
most recent insertion first (`key` is the sqlite primary key, so there is at
most one row per key). -/
abbrev IdemStore := List (String × String)

/-- `SessionManager.is_idempotent`: `SELECT result FROM idempotency WHERE
key=?`, returning the stored result or `None`. -/
def is_idempotent (st : IdemStore) (key : String) : Option String :=
  (st.find? (fun kv => kv.1 = key)).map (·.2)

/-- `SessionManager.store_idempotent`: `INSERT OR REPLACE INTO idempotency
VALUES (?,?,?)` — an existing row for `key` is replaced by the new one. -/
def store_idempotent (st : IdemStore) (key result : String) : IdemStore :=
  (key, result) :: st.filter (fun kv => kv.1 ≠ key)

/-- The validation loop of `place_order` lines 264–268: the first entry of
`required = ["account","symbol","side","qty"]` missing from the order dict,
if any.  Price, time-in-force, destination and order kind are not checked. -/
def missingRequired (o : Order) : Option String :=
  if o.account.isNone then some "account"
  else if o.symbol.isNone then some "symbol"
  else if o.side.isNone then some "side"
  else if o.qty.isNone then some "qty"
  else none

/-- `status or "submitted"` in the return of `place_order` line 415. -/
def statusOrSubmitted (s : String) : String := if s = "" then "submitted" else s

/-- Result of one dispatch: the acknowledgement record, the state store
after the call, and how many times the execution backend was invoked. -/
structure DispatchOutcome where
  result : DispatchResult
  store : IdemStore
  backendCalls : ℕ
deriving Repr, DecidableEq

/-- The tail of `place_order` after the idempotency gate: validation
(lines 264–268), then the native submit (lines 319–418).  `idem` is the
truthy idempotency key, if any.  On a raised backend exception the handler
at lines 416–418 returns an error record and persists nothing; on a
returned result object the record is persisted only when both `idem` and
the client id are truthy (lines 412–413). -/
def place_order_submit (st : IdemStore) (backend : Order → Except String SubmitResult)
    (order : Order) (idem : Option String) : DispatchOutcome :=
  match missingRequired order with
  | some r => ⟨⟨"error", "missing required field " ++ r, none⟩, st, 0⟩
  | none =>
    match backend order with
    | .error e => ⟨⟨"error", e, none⟩, st, 1⟩
    | .ok r =>
      let clientId := truthy r.clientOrderId
      let st2 :=
        match idem, clientId with
        | some k, some cid => store_idempotent st k cid
        | _, _ => st
      ⟨⟨statusOrSubmitted r.status, r.details, r.clientOrderId⟩, st2, 1⟩

/-- `SterlingCOM.place_order` (sterling_com.py lines 235–421): idempotency
gate first (lines 256–262) — a truthy stored result for a truthy key is
returned as `{"status":"submitted","details":"idempotent","clientOrderId":
prev}` with no backend call — then validation and submit. -/
def place_order (st : IdemStore) (backend : Order → Except String SubmitResult)
    (order : Order) : DispatchOutcome :=
  match truthy order.idempotencyKey with
  | some k =>
    match truthy (is_idempotent st k) with
    | some prev => ⟨⟨"submitted", "idempotent", some prev⟩, st, 0⟩
    | none => place_order_submit st backend order (some k)
  | none => place_order_submit st backend order none

/-!
Control-channel client (`WSClient`, src/connector/ws_client.py).
-/

/-- An outbound wire frame, by kind, as produced by `_run` (the
`sessionRegister` handshake), `_handle` (acks, pong, health) and
`_on_sterling_event` (relayed backend events). -/
inductive WireMsg where
  | sessionRegister (sessionId : String) (accounts : List String)
  | orderAck (idemKey : Option String) (status : String)
  | pong
  | health (sessionId : Option String) (accounts : List String)
  | relayedEvent (payload : String)
deriving Repr, DecidableEq

/-- Whether a frame is the handshake frame. -/
def WireMsg.isSessionRegister : WireMsg → Bool
  | .sessionRegister _ _ => true
  | _ => false

/-- The in-memory part of `SessionManager` the client reads in `_run`:
`self.session_id` (may be `None`) and `self.accounts` (initially `[]`). -/
structure SessionState where
  sessionId : Option String
  accounts : List String
deriving Repr, DecidableEq

/-- What `_run` lines 50–53 compute for the handshake: the session id and
account list placed in the `sessionRegister` frame, how often
`sterling.get_accounts()` was invoked, and the session stored back via
`set_session`. -/
structure RegisterOutcome where
  sessionId : String
  accounts : List String
  backendAccountCalls : ℕ
  session : SessionState
deriving Repr, DecidableEq

/-- `_run` lines 50–53, with `getAccounts` the backend account listing
`self.sterling.get_accounts()`:
`session_id = self.session_manager.session_id or "sterling-session"`;
`accounts = self.session_manager.accounts or self.sterling.get_accounts()`
(Python `or`: the cached list is used whenever it is non-empty, and the
backend is queried only otherwise); then `set_session(session_id, accounts)`. -/
def registerMessage (sm : SessionState) (getAccounts : Unit → List String) :
    RegisterOutcome :=
  let sid := match truthy sm.sessionId with
    | some s => s
    | none => "sterling-session"
  let (accts, calls) :=
    if sm.accounts.isEmpty then (getAccounts (), 1) else (sm.accounts, 0)
  ⟨sid, accts, calls, ⟨some sid, accts⟩⟩

/-!
Connection-epoch transition system for the handshake-first property.

`_run` executes on the single-threaded asyncio scheduler.  The segment from
`self.ws = ws` (line 48) through `await ws.send(sessionRegister)` (line 53)
contains no suspension point before the register frame is written to the
transport, so no other task (in particular no `_send` scheduled by
`_on_sterling_event` via `run_coroutine_threadsafe`) can interleave a frame
before it; the segment is therefore modelled as one atomic action.  Acks,
pongs and health replies are produced only inside the `async for` body
(lines 55–60), which runs strictly after the register send.  Relayed events
scheduled while no connection is open are dropped: either `self.ws` is still
`None` and `_on_sterling_event` returns at line 94, or `self.ws` is a stale
closed socket and `ws.send` raises inside `_send`, where the exception is
caught (lines 82–85).
-/

/-- Per-epoch client state: whether a connection is open, and the frames
written to the current epoch's wire, oldest first. -/
structure EpochState where
  connected : Bool
  wire : List WireMsg
deriving Repr, DecidableEq

/-- Atomic scheduler actions of one client, at the granularity of the
suspension points of `_run`, `_handle` and `_send`. -/
inductive EpochAct where
  | openRegister (sessionId : String) (accounts : List String)
  | ackSend (idemKey : Option String) (status : String)
  | pongSend
  | healthSend (sessionId : Option String) (accounts : List String)
  | relayEvent (payload : String)
  | closeConn
deriving Repr, DecidableEq

/-- One atomic action.  `openRegister` is the connect-and-handshake segment
(lines 47–54), starting a fresh epoch wire whose first frame is the
register; the `_handle` replies and relayed events reach the wire only
while the connection is open; `closeConn` ends the epoch. -/
def epochStep (s : EpochState) : EpochAct → EpochState
  | .openRegister sid accts =>
    if s.connected then s else ⟨true, [WireMsg.sessionRegister sid accts]⟩
  | .ackSend k st =>
    if s.connected then ⟨true, s.wire ++ [WireMsg.orderAck k st]⟩ else s
  | .pongSend =>
    if s.connected then ⟨true, s.wire ++ [WireMsg.pong]⟩ else s
  | .healthSend sid accts =>
    if s.connected then ⟨true, s.wire ++ [WireMsg.health sid accts]⟩ else s
  | .relayEvent p =>
    if s.connected then ⟨true, s.wire ++ [WireMsg.relayedEvent p]⟩ else s
  | .closeConn => ⟨false, []⟩

/-- Initial client state: `Disconnected`, nothing sent. -/
def epochInit : EpochState := ⟨false, []⟩

/-- Run a sequence of atomic actions from a state. -/
def epochRun (s : EpochState) (acts : List EpochAct) : EpochState :=
  acts.foldl epochStep s

/-!
Reconnect backoff (`connect_loop` and `_next_backoff`, lines 20–34).
Python float arithmetic is modelled over `ℚ`; `random.uniform(0, min(5, b))`
is a jitter parameter `j` with `0 ≤ j ≤ min 5 b`.
-/

/-- `_next_backoff`: `b = self._backoff + uniform(0, min(5, self._backoff))`;
`self._backoff = min(self._max_backoff, b * 1.5)`; the new value is both
stored and returned as the sleep duration (`_max_backoff = 60`). -/
def next_backoff (b j : ℚ) : ℚ := min 60 ((b + j) * (3 / 2))

/-- Outcome of one `connect_loop` iteration: `_run` either raised after
`activeSecs` seconds of `Active` service (connect failure = `0`), or
returned normally (clean close of the inbound iterator). -/
inductive EpochOutcome where
  | runErr (activeSecs : ℕ) (jitter : ℚ)
  | runClean
deriving Repr, DecidableEq

/-- One `connect_loop` iteration (lines 21–28): on a raised error the loop
sleeps `_next_backoff()` — the duration of the preceding `Active` period is
not consulted — and on a normal return it resets `self._backoff = 1` and
sleeps nothing.  Returns the new backoff value and the emitted delay. -/
def connect_loop_step (b : ℚ) : EpochOutcome → ℚ × Option ℚ
  | .runErr _ j => (next_backoff b j, some (next_backoff b j))
  | .runClean => (1, none)

/-- Fold `connect_loop` over a sequence of epoch outcomes, collecting the
reconnect delays in order. -/
def connect_loop_run (b : ℚ) : List EpochOutcome → ℚ × List ℚ
  | [] => (b, [])
  | e :: es =>
    let p := connect_loop_step b e
    let rest := connect_loop_run p.1 es
    (rest.1, p.2.toList ++ rest.2)

/-- Validity of the jitter values along a run: each `runErr` jitter is drawn
from `uniform(0, min(5, backoff))` at the backoff current when it is drawn. -/
def validRun : ℚ → List EpochOutcome → Bool
  | _, [] => true
  | _, .runClean :: es => validRun 1 es
  | b, .runErr _ j :: es =>
    decide (0 ≤ j) && decide (j ≤ min 5 b) && validRun (next_backoff b j) es

/-- Whether every epoch of a run ended in a raised error (a reconnect
streak with no intervening clean close). -/
def allErr : List EpochOutcome → Bool
  | [] => true
  | .runClean :: _ => false
  | .runErr _ _ :: es => allErr es

/-!
Inbound message handling (`_run` lines 55–60 and `_handle`, lines 62–76).
-/

/-- An inbound frame as classified by `_handle`.  `malformedFrame` stands
for a frame whose processing raises inside the loop body — e.g. a frame
that is not valid JSON, or a `placeOrder` frame whose `order` payload is
not a dict (so `place_order` raises an `AttributeError`). -/
inductive InMsg where
  | placeOrder (o : Order)
  | malformedFrame
  | ping
  | healthCheck
  | unknown (t : String)
deriving Repr, DecidableEq

/-- `_handle` for one message: the state-store after handling and the
frames sent in reply; `Except.error` is an exception raised while
processing the frame.  `placeOrder` runs `place_order` in the executor and
sends an `orderAck` built from the result (line 69); `ping` replies `pong`;
`healthCheck` replies with the current session; unknown types are logged
and produce no reply (line 76). -/
def handleMsg (sm : SessionState) (st : IdemStore)
    (backend : Order → Except String SubmitResult) :
    InMsg → Except String (IdemStore × List WireMsg)
  | .placeOrder o =>
    let out := place_order st backend o
    .ok (out.store, [WireMsg.orderAck o.idempotencyKey out.result.status])
  | .malformedFrame => .error "error processing inbound message"
  | .ping => .ok (st, [WireMsg.pong])
  | .healthCheck => .ok (st, [WireMsg.health sm.sessionId sm.accounts])
  | .unknown _ => .ok (st, [])

/-- The `async for` body of `_run` (lines 55–60): each inbound frame is
processed under `try/except`, so a raised exception is logged and the loop
advances to the next frame instead of closing the connection.  Returns the
final store, all reply frames in order, and the number of frames the loop
consumed. -/
def runInboundLoop (sm : SessionState)
    (backend : Order → Except String SubmitResult) :
    IdemStore → List InMsg → IdemStore × List WireMsg × ℕ
  | st, [] => (st, [], 0)
  | st, m :: ms =>
    match handleMsg sm st backend m with
    | .ok (st2, outs) =>
      let rest := runInboundLoop sm backend st2 ms
      (rest.1, outs ++ rest.2.1, rest.2.2 + 1)
    | .error _ =>
      let rest := runInboundLoop sm backend st ms
      (rest.1, rest.2.1, rest.2.2 + 1)

/-!
Guarded sending (`_send`, lines 78–85).
-/

/-- The value of `self.ws` as it affects `_send`: never assigned (`None`),
assigned but the socket has since closed (a send on it raises), or open. -/
inductive WsConn where
  | unset
  | stale
  | wsOpen
deriving Repr, DecidableEq

/-- `WSClient._send`: when `self.ws` is falsy it logs and returns (the
message is not stored anywhere); otherwise `ws.send` is attempted inside
`try/except`, so on a stale socket the raised exception is swallowed and
the message is likewise dropped.  Returns the wire after the call and
whether an exception escaped `_send` (never). -/
def wsSend (conn : WsConn) (wire : List WireMsg) (m : WireMsg) :
    List WireMsg × Bool :=
  match conn with
  | .unset => (wire, false)
  | .stale => (wire, false)
  | .wsOpen => (wire ++ [m], false)

/-- A sequence of `_send` calls, each under the connection state current at
that call, starting from an empty wire: the frames actually delivered. -/
def wsSendSeq (sends : List (WsConn × WireMsg)) : List WireMsg :=
  sends.foldl (fun wire cm => (wsSend cm.1 wire cm.2).1) []

/-!
Two concurrent dispatches with the same idempotency key.

`_handle` runs `place_order` via `loop.run_in_executor(None, ...)`, i.e. on
a thread pool, so two `placeOrder` frames can execute `place_order`
concurrently.  `place_order` takes no lock around the idempotency window
(`self._lock` exists on `SterlingCOM` but is used only by `start`/`stop`),
so its steps interleave at the granularity of the individual state-store
calls.  Each thread runs, for the same truthy key: (pc 0) the lookup of
lines 256–262, then either returns the replay or proceeds; (pc 1) the
backend submit; (pc 2) the `store_idempotent` of lines 412–413; (pc 3)
done.  Validation between pc 0 and pc 1 touches no shared state and is
elided (the raced order is valid). -/
structure ThreadState where
  pc : ℕ
  oid : String
  replayed : Option String
deriving Repr, DecidableEq

/-- Shared state of the race: the idempotency store and the number of
backend submits performed. -/
structure RaceShared where
  store : IdemStore
  backendCalls : ℕ
deriving Repr, DecidableEq

/-- One atomic step of one thread executing `place_order` for key `key`;
`t.oid` is the client id its backend call returns. -/
def threadStep (key : String) (sh : RaceShared) (t : ThreadState) :
    RaceShared × ThreadState :=
  match t.pc with
  | 0 =>
    match truthy (is_idempotent sh.store key) with
    | some prev => (sh, { t with pc := 3, replayed := some prev })
    | none => (sh, { t with pc := 1 })
  | 1 => (⟨sh.store, sh.backendCalls + 1⟩, { t with pc := 2 })
  | 2 => (⟨store_idempotent sh.store key t.oid, sh.backendCalls⟩, { t with pc := 3 })
  | _ => (sh, t)

/-- Global race state: shared store plus the two executor threads. -/
structure RaceState where
  shared : RaceShared
  t1 : ThreadState
  t2 : ThreadState
deriving Repr, DecidableEq

/-- Interleave the two threads under a schedule (`true` steps thread 1). -/
def raceRun (key : String) (s : RaceState) : List Bool → RaceState
  | [] => s
  | c :: cs =>
    let s2 :=
      if c then
        let p := threadStep key s.shared s.t1
        ⟨p.1, p.2, s.t2⟩
      else
        let p := threadStep key s.shared s.t2
        ⟨p.1, s.t1, p.2⟩
    raceRun key s2 cs

/-- Both dispatches start before either has run: empty store, no backend
calls, both threads at the idempotency lookup. -/
def raceStart : RaceState :=
  ⟨⟨[], 0⟩, ⟨0, "oid-A", none⟩, ⟨0, "oid-B", none⟩⟩

/-!
Concrete inputs used by counterexamples and witnesses.
-/

/-- A backend whose submit succeeds with client id `oid-777`. -/
def demoBackendOk : Order → Except String SubmitResult :=
  fun _ => .ok ⟨some "oid-777", "submitted", "ok"⟩

/-- A backend whose submit raises a transient-unavailable error. -/
def demoBackendDown : Order → Except String SubmitResult :=
  fun _ => .error "BackendUnavailable"

/-- Scenario A's command: a complete market order carrying key `k1`. -/
def demoOrder : Order :=
  { account := some "ACC1", symbol := some "XYZ", side := some "B",
    qty := some 100, idempotencyKey := some "k1" }

/-- A limit-kind command that carries no price field. -/
def demoLimitNoPrice : Order :=
  { account := some "ACC1", symbol := some "XYZ", side := some "B",
    qty := some 100, orderKind := some "limit" }

/-- A command with no symbol and no idempotency key. -/
def demoNoSymbol : Order :=
  { account := some "ACC1", side := some "B", qty := some 100 }

/-!
Claim C1 — idempotent replay.
-/

/-- Claim C1, counterexample to the stated status: for the command with key
`k1` and a store already holding `k1 ↦ oid1`, `place_order` replays the
stored result id but with status `submitted` (details `idempotent`), not
status `idempotentReplay`. -/
theorem place_order_replay_not_statused_idempotentReplay :
    demoOrder.idempotencyKey = some "k1" ∧
    is_idempotent [("k1", "oid1")] "k1" = some "oid1" ∧
    (place_order [("k1", "oid1")] demoBackendOk demoOrder).result.status = "submitted" ∧
    (place_order [("k1", "oid1")] demoBackendOk demoOrder).result.status ≠ "idempotentReplay" := by
  refine ⟨rfl, rfl, rfl, ?_⟩
  decide

/-- Claim C1 (amended): for every command carrying a truthy idempotencyKey
for which the state store already holds a truthy record, dispatching
returns the stored resultId as `clientOrderId` with status `submitted` and
details `idempotent`, the store is unchanged, and the execution backend is
not invoked. -/
theorem place_order_idempotent_replay (st : IdemStore)
    (backend : Order → Except String SubmitResult) (o : Order) (k prev : String)
    (hk : o.idempotencyKey = some k) (hk' : k ≠ "")
    (hprev : is_idempotent st k = some prev) (hprev' : prev ≠ "") :
    place_order st backend o = ⟨⟨"submitted", "idempotent", some prev⟩, st, 0⟩ := by
  unfold place_order
  rw [hk]
  simp [truthy, hk', hprev, hprev']

/-- Claim C1 witness: the replay theorem applied to Scenario A's command
with the record `k1 ↦ oid1` in the store. -/
theorem place_order_idempotent_replay_witness :
    place_order [("k1", "oid1")] demoBackendOk demoOrder =
      ⟨⟨"submitted", "idempotent", some "oid1"⟩, [("k1", "oid1")], 0⟩ :=
  place_order_idempotent_replay [("k1", "oid1")] demoBackendOk demoOrder "k1" "oid1"
    rfl (by decide) rfl (by decide)

/-!
Claim C2 — put semantics of the idempotency store.
-/

/-- Claim C2, counterexample: a second `store_idempotent` for key `k1` with
a different resultId does not leave the stored resultId unchanged —
`INSERT OR REPLACE` overwrites it. -/
theorem store_idempotent_second_put_overwrites :
    is_idempotent (store_idempotent [("k1", "oid-A")] "k1" "oid-B") "k1" = some "oid-B" ∧
    (some "oid-B" : Option String) ≠ some "oid-A" := by
  refine ⟨rfl, ?_⟩
  decide

/-- Claim C2 (amended): `store_idempotent` has insert-or-replace semantics
— after any put for a key, a read of that key returns the resultId of that
put (last writer wins), so a second put with a different resultId replaces
the stored one. -/
theorem store_idempotent_last_writer_wins (st : IdemStore) (k r : String) :
    is_idempotent (store_idempotent st k r) k = some r := by
  simp [is_idempotent, store_idempotent]

/-!
Claim C3 — backend failure persists nothing.
-/

/-- Claim C3: for a command with a truthy idempotencyKey not yet recorded,
if the backend submit raises, `place_order` returns status `error` with the
exception text as detail, the state store is unchanged, and an identical
resubmission against the resulting store invokes the backend again. -/
theorem place_order_backend_failure (st : IdemStore)
    (backend : Order → Except String SubmitResult) (o : Order) (k e : String)
    (hk : o.idempotencyKey = some k) (hk' : k ≠ "")
    (hmiss : truthy (is_idempotent st k) = none)
    (hval : missingRequired o = none)
    (hbk : backend o = .error e) :
    place_order st backend o = ⟨⟨"error", e, none⟩, st, 1⟩ ∧
    (place_order (place_order st backend o).store backend o).backendCalls = 1 := by
  have ht : truthy o.idempotencyKey = some k := by
    rw [hk]; simp [truthy, hk']
  have h1 : place_order st backend o = ⟨⟨"error", e, none⟩, st, 1⟩ := by
    unfold place_order
    simp only [ht, hmiss]
    simp [place_order_submit, hval, hbk]
  refine ⟨h1, ?_⟩
  have hst : (place_order st backend o).store = st := by rw [h1]
  rw [hst, h1]

/-- Claim C3 witness: Scenario B — the backend raises `BackendUnavailable`
on Scenario A's command against an empty store. -/
theorem place_order_backend_failure_witness :
    place_order [] demoBackendDown demoOrder = ⟨⟨"error", "BackendUnavailable", none⟩, [], 1⟩ ∧
    (place_order (place_order [] demoBackendDown demoOrder).store demoBackendDown demoOrder).backendCalls = 1 :=
  place_order_backend_failure [] demoBackendDown demoOrder "k1" "BackendUnavailable"
    rfl (by decide) rfl rfl rfl

/-!
Claim C4 — field validation.
-/

/-- Claim C4, counterexample: a limit-kind command missing its price field
is not failed fast — `place_order` invokes the execution backend for it and
returns the backend's status, because validation checks only account,
symbol, side and qty. -/
theorem place_order_missing_price_reaches_backend :
    demoLimitNoPrice.orderKind = some "limit" ∧
    demoLimitNoPrice.price = none ∧
    (place_order [] demoBackendOk demoLimitNoPrice).backendCalls = 1 ∧
    (place_order [] demoBackendOk demoLimitNoPrice).result.status = "submitted" := by
  exact ⟨rfl, rfl, rfl, rfl⟩

/-- Claim C4 (amended): when the idempotency gate does not fire, a command
missing one of the four required fields account, symbol, side, qty is
failed fast with detail `missing required field <name>` and the execution
backend is never invoked; kind-specific price fields are not validated. -/
theorem place_order_validates_core_fields (st : IdemStore)
    (backend : Order → Except String SubmitResult) (o : Order) (r : String)
    (hidem : truthy o.idempotencyKey = none ∨
      ∃ k, truthy o.idempotencyKey = some k ∧ truthy (is_idempotent st k) = none)
    (hmiss : missingRequired o = some r) :
    place_order st backend o = ⟨⟨"error", "missing required field " ++ r, none⟩, st, 0⟩ := by
  unfold place_order
  rcases hidem with h | ⟨k, hk, hnone⟩
  · rw [h]
    simp [place_order_submit, hmiss]
  · simp only [hk, hnone]
    simp [place_order_submit, hmiss]

/-- Claim C4 witness: the validation theorem applied to the command with no
symbol and no idempotency key. -/
theorem place_order_validates_core_fields_witness :
    place_order [] demoBackendOk demoNoSymbol =
      ⟨⟨"error", "missing required field symbol", none⟩, [], 0⟩ :=
  place_order_validates_core_fields [] demoBackendOk demoNoSymbol "symbol" (Or.inl rfl) rfl

/-!
Claim C5 — handshake-first.
-/

/-- Invariant of the epoch system: while connected, the current epoch's
wire starts with the handshake frame; while disconnected, nothing of the
current epoch has been sent. -/
def EpochInv (s : EpochState) : Prop :=
  (s.connected = true →
    ∃ sid accts, s.wire.head? = some (WireMsg.sessionRegister sid accts)) ∧
  (s.connected = false → s.wire = [])

theorem epochStep_preserves_inv (s : EpochState) (a : EpochAct)
    (h : EpochInv s) : EpochInv (epochStep s a) := by
  obtain ⟨hconn, hdisc⟩ := h
  cases a with
  | openRegister sid accts =>
    by_cases hc : s.connected = true
    · simpa [epochStep, hc] using ⟨hconn, hdisc⟩
    · simp only [Bool.not_eq_true] at hc
      refine ⟨fun _ => ⟨sid, accts, ?_⟩, fun h2 => ?_⟩
      · simp [epochStep, hc]
      · simp [epochStep, hc] at h2
  | ackSend k st =>
    by_cases hc : s.connected = true
    · obtain ⟨sid, accts, hw⟩ := hconn hc
      refine ⟨fun _ => ⟨sid, accts, ?_⟩, fun h2 => ?_⟩
      · simp [epochStep, hc, List.head?_append, hw]
      · simp [epochStep, hc] at h2
    · simp only [Bool.not_eq_true] at hc
      simpa [epochStep, hc] using ⟨hconn, hdisc⟩
  | pongSend =>
    by_cases hc : s.connected = true
    · obtain ⟨sid, accts, hw⟩ := hconn hc
      refine ⟨fun _ => ⟨sid, accts, ?_⟩, fun h2 => ?_⟩
      · simp [epochStep, hc, List.head?_append, hw]
      · simp [epochStep, hc] at h2
    · simp only [Bool.not_eq_true] at hc
      simpa [epochStep, hc] using ⟨hconn, hdisc⟩
  | healthSend sid0 accts0 =>
    by_cases hc : s.connected = true
    · obtain ⟨sid, accts, hw⟩ := hconn hc
      refine ⟨fun _ => ⟨sid, accts, ?_⟩, fun h2 => ?_⟩
      · simp [epochStep, hc, List.head?_append, hw]
      · simp [epochStep, hc] at h2
    · simp only [Bool.not_eq_true] at hc
      simpa [epochStep, hc] using ⟨hconn, hdisc⟩
  | relayEvent p =>
    by_cases hc : s.connected = true
    · obtain ⟨sid, accts, hw⟩ := hconn hc
      refine ⟨fun _ => ⟨sid, accts, ?_⟩, fun h2 => ?_⟩
      · simp [epochStep, hc, List.head?_append, hw]
      · simp [epochStep, hc] at h2
    · simp only [Bool.not_eq_true] at hc
      simpa [epochStep, hc] using ⟨hconn, hdisc⟩
  | closeConn =>
    exact ⟨fun h2 => by simp [epochStep] at h2, fun _ => by simp [epochStep]⟩

theorem epochRun_preserves_inv (acts : List EpochAct) (s : EpochState)
    (h : EpochInv s) : EpochInv (epochRun s acts) := by
  induction acts generalizing s with
  | nil => exact h
  | cons a rest ih => exact ih (epochStep s a) (epochStep_preserves_inv s a h)

/-- Claim C5: for every sequence of scheduler actions from the initial
state, if any frame has been sent in the current connection epoch, the
first frame of the epoch is the `sessionRegister` handshake — no orderAck
and no relayed backend event precedes it. -/
theorem epoch_first_frame_is_sessionRegister (acts : List EpochAct) (m : WireMsg)
    (h : (epochRun epochInit acts).wire.head? = some m) :
    m.isSessionRegister = true := by
  have hinv : EpochInv (epochRun epochInit acts) :=
    epochRun_preserves_inv acts epochInit ⟨fun hc => by simp [epochInit] at hc, fun _ => rfl⟩
  obtain ⟨hconn, hdisc⟩ := hinv
  cases hc : (epochRun epochInit acts).connected with
  | false =>
    rw [hdisc hc] at h
    simp at h
  | true =>
    obtain ⟨sid, accts, hw⟩ := hconn hc
    rw [hw] at h
    obtain rfl : m = WireMsg.sessionRegister sid accts := by
      simpa using h.symm
    rfl

/-- Claim C5 witness: an epoch that registers and then acknowledges an
order has the handshake as its first frame. -/
theorem epoch_first_frame_is_sessionRegister_witness :
    (epochRun epochInit
        [EpochAct.openRegister "sterling-session" ["ACC1"],
         EpochAct.ackSend (some "k1") "submitted"]).wire.head? =
      some (WireMsg.sessionRegister "sterling-session" ["ACC1"]) ∧
    (WireMsg.sessionRegister "sterling-session" ["ACC1"]).isSessionRegister = true :=
  ⟨rfl,
   epoch_first_frame_is_sessionRegister
     [EpochAct.openRegister "sterling-session" ["ACC1"],
      EpochAct.ackSend (some "k1") "submitted"]
     (WireMsg.sessionRegister "sterling-session" ["ACC1"]) rfl⟩

/-!
Claim C6 — concurrent dispatches with the same key.
-/

/-- Claim C6, failing schedule: both threads execute the idempotency lookup
of `place_order` before either has persisted a record, so both proceed to
the backend — two backend submits for the same key, and both threads run to
completion without replaying.  The schedule is lookup₁, lookup₂, submit₁,
submit₂, store₁, store₂. -/
theorem race_same_key_double_backend_call :
    (raceRun "k1" raceStart [true, false, true, false, true, false]).shared.backendCalls = 2 ∧
    (raceRun "k1" raceStart [true, false, true, false, true, false]).t1.replayed = none ∧
    (raceRun "k1" raceStart [true, false, true, false, true, false]).t2.replayed = none ∧
    (raceRun "k1" raceStart [true, false, true, false, true, false]).t1.pc = 3 ∧
    (raceRun "k1" raceStart [true, false, true, false, true, false]).t2.pc = 3 := by
  exact ⟨rfl, rfl, rfl, rfl, rfl⟩

/-!
Claim C7 — accounts placed in the handshake.
-/

/-- Claim C7, counterexample: with a non-empty cached account list, the
handshake uses the cached accounts and the backend account listing is not
queried at all — the precedence is the reverse of the claimed one. -/
theorem register_prefers_cached_accounts :
    (registerMessage ⟨some "sid", ["CACHED"]⟩ (fun _ => ["FRESH"])).accounts = ["CACHED"] ∧
    (registerMessage ⟨some "sid", ["CACHED"]⟩ (fun _ => ["FRESH"])).backendAccountCalls = 0 ∧
    (["CACHED"] : List String) ≠ ["FRESH"] := by
  refine ⟨rfl, rfl, ?_⟩
  decide

/-- Claim C7 (amended): the handshake accounts come from the state store's
cached list whenever it is non-empty, without querying the backend; the
backend account listing is queried (exactly once) only when the cached list
is empty. -/
theorem registerMessage_accounts_spec (sm : SessionState) (f : Unit → List String) :
    (sm.accounts ≠ [] →
      (registerMessage sm f).accounts = sm.accounts ∧
      (registerMessage sm f).backendAccountCalls = 0) ∧
    (sm.accounts = [] →
      (registerMessage sm f).accounts = f () ∧
      (registerMessage sm f).backendAccountCalls = 1) := by
  constructor
  · intro h
    constructor <;> simp [registerMessage, List.isEmpty_iff, h]
  · intro h
    constructor <;> simp [registerMessage, h]

/-- Claim C7 witness: the accounts theorem applied to a populated cache and
to an empty cache. -/
theorem registerMessage_accounts_spec_witness :
    (registerMessage ⟨some "sid", ["ACC1"]⟩ (fun _ => ["FRESH"])).accounts = ["ACC1"] ∧
    (registerMessage ⟨none, []⟩ (fun _ => ["FRESH"])).accounts = ["FRESH"] :=
  ⟨((registerMessage_accounts_spec ⟨some "sid", ["ACC1"]⟩ (fun _ => ["FRESH"])).1 (by decide)).1,
   ((registerMessage_accounts_spec ⟨none, []⟩ (fun _ => ["FRESH"])).2 rfl).1⟩

/-!
Claim C8 — backoff bounds and reset.
-/

theorem next_backoff_le_max (b j : ℚ) : next_backoff b j ≤ 60 :=
  min_le_left _ _

theorem next_backoff_mono (b j : ℚ) (hb0 : 0 ≤ b) (hb : b ≤ 60) (hj : 0 ≤ j) :
    b ≤ next_backoff b j := by
  unfold next_backoff
  refine le_min hb ?_
  nlinarith

theorem next_backoff_ge_one (b j : ℚ) (hb : 1 ≤ b) (hj : 0 ≤ j) :
    1 ≤ next_backoff b j := by
  unfold next_backoff
  refine le_min (by norm_num) ?_
  nlinarith

/-- Along a streak of error epochs, each delay is at least the starting
backoff and at most the maximum, and successive delays are non-decreasing. -/
theorem connect_loop_delays_mono (es : List EpochOutcome) (b : ℚ)
    (hb1 : 1 ≤ b) (hb60 : b ≤ 60) (hv : validRun b es = true)
    (he : allErr es = true) :
    List.Chain' (· ≤ ·) (connect_loop_run b es).2 ∧
    ∀ d ∈ (connect_loop_run b es).2, b ≤ d ∧ d ≤ 60 := by
  induction es generalizing b with
  | nil =>
    exact ⟨List.chain'_nil, by intro d hd; simp [connect_loop_run] at hd⟩
  | cons e es ih =>
    cases e with
    | runClean => simp [allErr] at he
    | runErr a j =>
      simp only [validRun, Bool.and_eq_true, decide_eq_true_eq] at hv
      obtain ⟨⟨hj0, hj5⟩, hvrest⟩ := hv
      simp only [allErr] at he
      have hb0 : (0 : ℚ) ≤ b := le_trans (by norm_num) hb1
      have hd1 : 1 ≤ next_backoff b j := next_backoff_ge_one b j hb1 hj0
      have hd60 : next_backoff b j ≤ 60 := next_backoff_le_max b j
      have hbd : b ≤ next_backoff b j := next_backoff_mono b j hb0 hb60 hj0
      obtain ⟨hchain, hbound⟩ := ih (next_backoff b j) hd1 hd60 hvrest he
      have hrun : (connect_loop_run b (EpochOutcome.runErr a j :: es)).2 =
          next_backoff b j :: (connect_loop_run (next_backoff b j) es).2 := by
        simp [connect_loop_run, connect_loop_step]
      rw [hrun]
      refine ⟨List.chain'_cons'.mpr ⟨?_, hchain⟩, ?_⟩
      · intro y hy
        have hmem : y ∈ (connect_loop_run (next_backoff b j) es).2 :=
          List.mem_of_mem_head? hy
        exact (hbound y hmem).1
      · intro d hd
        rcases List.mem_cons.mp hd with rfl | hd'
        · exact ⟨hbd, hd60⟩
        · exact ⟨le_trans hbd (hbound d hd').1, (hbound d hd').2⟩

/-- Claim C8, counterexample to the reset clause: after two failed connect
attempts the backoff has grown to `9/4`; a third epoch that stays `Active`
for 3600 seconds and then ends in a raised error does not reset the backoff
to the floor — the next delay is `27/8`, strictly above the floor delay
`3/2`, and the stored backoff is `27/8`, not the floor `1`. -/
theorem backoff_no_reset_after_sustained_active :
    (connect_loop_run 1
        [EpochOutcome.runErr 0 0, EpochOutcome.runErr 0 0,
         EpochOutcome.runErr 3600 0]).2 = [3/2, 9/4, 27/8] ∧
    (connect_loop_run 1
        [EpochOutcome.runErr 0 0, EpochOutcome.runErr 0 0,
         EpochOutcome.runErr 3600 0]).1 = 27/8 ∧
    ¬((27 : ℚ)/8 ≤ 3/2) ∧ ((27 : ℚ)/8 ≠ 1) := by
  refine ⟨?_, ?_, by norm_num, by norm_num⟩ <;>
    norm_num [connect_loop_run, connect_loop_step, next_backoff, min_def]

/-- Claim C8 (amended): starting at the floor, over any streak of error
epochs with valid jitters the successive reconnect delays are
non-decreasing and bounded by the configured maximum 60; the backoff is
reset to its floor 1 exactly when `_run` returns normally, while an epoch
ending in a raised error updates it through `_next_backoff` regardless of
how long the connection was `Active`. -/
theorem connect_loop_backoff_props (es : List EpochOutcome)
    (hv : validRun 1 es = true) (he : allErr es = true) :
    List.Chain' (· ≤ ·) (connect_loop_run 1 es).2 ∧
    (∀ d ∈ (connect_loop_run 1 es).2, d ≤ 60) ∧
    (∀ b : ℚ, connect_loop_step b EpochOutcome.runClean = (1, none)) ∧
    (∀ (b : ℚ) (a a' : ℕ) (j : ℚ),
      connect_loop_step b (EpochOutcome.runErr a j) =
        connect_loop_step b (EpochOutcome.runErr a' j)) := by
  obtain ⟨hchain, hbound⟩ :=
    connect_loop_delays_mono es 1 le_rfl (by norm_num) hv he
  exact ⟨hchain, fun d hd => (hbound d hd).2, fun _ => rfl, fun _ _ _ _ => rfl⟩

/-- Claim C8 witness: the backoff theorem applied to a three-error streak
with zero jitter. -/
theorem connect_loop_backoff_props_witness :
    List.Chain' (· ≤ ·)
      (connect_loop_run 1
        [EpochOutcome.runErr 0 0, EpochOutcome.runErr 0 0,
         EpochOutcome.runErr 0 0]).2 ∧
    (∀ d ∈ (connect_loop_run 1
        [EpochOutcome.runErr 0 0, EpochOutcome.runErr 0 0,
         EpochOutcome.runErr 0 0]).2, d ≤ 60) :=
  ⟨(connect_loop_backoff_props _
      (by norm_num [validRun, next_backoff, min_def]) (by decide)).1,
   (connect_loop_backoff_props _
      (by norm_num [validRun, next_backoff, min_def]) (by decide)).2.1⟩

/-!
Claim C9 — totality of the dispatch path.
-/

theorem statusOrSubmitted_ne_empty (s : String) : statusOrSubmitted s ≠ "" := by
  unfold statusOrSubmitted
  split
  · decide
  · assumption

theorem place_order_submit_status_ne_empty (st : IdemStore)
    (backend : Order → Except String SubmitResult) (o : Order)
    (idem : Option String) :
    (place_order_submit st backend o idem).result.status ≠ "" := by
  rcases hm : missingRequired o with _ | r
  · rcases hb : backend o with e | r
    · simp only [place_order_submit, hm, hb]
      simp
    · simp only [place_order_submit, hm, hb]
      exact statusOrSubmitted_ne_empty r.status
  · simp only [place_order_submit, hm]
    simp

/-- Claim C9: the dispatch path is total and error-contained — every
dispatch produces an acknowledgement record carrying a (non-empty) status,
and the inbound loop consumes every frame of the epoch even when the
processing of some frame raises, so one bad command never terminates the
read loop or closes the connection. -/
theorem dispatch_total_and_loop_survives (sm : SessionState)
    (backend : Order → Except String SubmitResult) (st : IdemStore)
    (msgs : List InMsg) (o : Order) :
    (runInboundLoop sm backend st msgs).2.2 = msgs.length ∧
    (place_order st backend o).result.status ≠ "" := by
  constructor
  · induction msgs generalizing st with
    | nil => rfl
    | cons m ms ih =>
      cases h : handleMsg sm st backend m with
      | ok p =>
        obtain ⟨st2, outs⟩ := p
        simp [runInboundLoop, h, ih]
      | error e =>
        simp [runInboundLoop, h, ih]
  · rcases hk : truthy o.idempotencyKey with _ | k
    · simp only [place_order, hk]
      exact place_order_submit_status_ne_empty st backend o none
    · rcases hp : truthy (is_idempotent st k) with _ | prev
      · simp only [place_order, hk, hp]
        exact place_order_submit_status_ne_empty st backend o (some k)
      · simp only [place_order, hk, hp]
        simp

/-!
Claim C10 — sends while disconnected are dropped, not buffered.
-/

theorem wsSendSeq_not_mem (m : WireMsg) (sends : List (WsConn × WireMsg)) :
    ∀ acc : List WireMsg, m ∉ acc →
      (∀ cm ∈ sends, cm.2 = m → cm.1 ≠ WsConn.wsOpen) →
      m ∉ sends.foldl (fun wire cm => (wsSend cm.1 wire cm.2).1) acc := by
  induction sends with
  | nil =>
    intro acc hacc _
    simpa using hacc
  | cons cm rest ih =>
    intro acc hacc hsends
    rw [List.foldl_cons]
    refine ih _ ?_ (fun x hx hxm => hsends x (List.mem_cons_of_mem cm hx) hxm)
    cases hc : cm.1 with
    | unset => simpa [wsSend] using hacc
    | stale => simpa [wsSend] using hacc
    | wsOpen =>
      have hne : cm.2 ≠ m := fun he => (hsends cm (List.mem_cons_self cm rest) he) hc
      have hne' : m ≠ cm.2 := fun he => hne he.symm
      simp [wsSend, List.mem_append, hacc, hne']

/-- Claim C10: when no websocket connection is open — `self.ws` never
assigned, or assigned but since closed — `_send` returns normally with the
wire unchanged and no exception escaping, the message is retained nowhere,
and a message all of whose send attempts happen while no connection is
open is never delivered on any wire. -/
theorem send_while_disconnected_drops (conn : WsConn) (wire : List WireMsg)
    (m : WireMsg) (h : conn ≠ WsConn.wsOpen) :
    wsSend conn wire m = (wire, false) ∧
    ∀ sends : List (WsConn × WireMsg),
      (∀ cm ∈ sends, cm.2 = m → cm.1 ≠ WsConn.wsOpen) →
      m ∉ wsSendSeq sends := by
  constructor
  · cases conn with
    | unset => rfl
    | stale => rfl
    | wsOpen => exact absurd rfl h
  · intro sends hs
    exact wsSendSeq_not_mem m sends [] (by simp) hs

/-- Claim C10 witness: an orderAck produced while `self.ws` is unset is
dropped, and across a history where its only send attempts happen while
the connection is unset or stale it never reaches the wire. -/
theorem send_while_disconnected_drops_witness :
    wsSend WsConn.unset [] (WireMsg.orderAck (some "k1") "submitted") = ([], false) ∧
    WireMsg.orderAck (some "k1") "submitted" ∉ wsSendSeq
      [(WsConn.unset, WireMsg.orderAck (some "k1") "submitted"),
       (WsConn.wsOpen, WireMsg.pong),
       (WsConn.stale, WireMsg.orderAck (some "k1") "submitted")] :=
  ⟨(send_while_disconnected_drops WsConn.unset []
      (WireMsg.orderAck (some "k1") "submitted") (by decide)).1,
   (send_while_disconnected_drops WsConn.unset []
      (WireMsg.orderAck (some "k1") "submitted") (by decide)).2
     [(WsConn.unset, WireMsg.orderAck (some "k1") "submitted"),
      (WsConn.wsOpen, WireMsg.pong),
      (WsConn.stale, WireMsg.orderAck (some "k1") "submitted")] (by decide)⟩
